import Mathlib

/-!
Shallow embedding of the agent-based "Village of Warriors" simulation
(notebooks `ABMexample.ipynb` and `class17.ipynb`, identical core code).

The model: a `Warrior` agent carries an integer key `id`, experience `xp`
(a real number, modelled as `ℚ` since all arithmetic on it is exact sums
of small constants) and an integer `strength`.  Each activation runs a
hunt phase (`np.random.uniform(0,1) >= .8` → `xp += 2.`, `strength += 3`)
and a wrestle phase (`np.random.uniform(0,1) > .85` → pick a uniformly
random opponent from the full agent list, compare strengths with strict
`<`, redistribute xp).  The `Village` model builds `n` warriors with keys
`0..n-1` and delegates `step()` to a random-activation scheduler that
activates every agent once per tick in a shuffled order.

Randomness is embedded as an explicit oracle (`RandSrc`): a stream of
initial-strength draws (`np.random.randint(1, 10)`), a per-tick shuffled
activation order, and per-activation draws `(u, v, pick)` for the hunt
roll, the wrestle roll and the opponent index.
-/

/-- A warrior agent: `self.id = key`, `self.xp = 1`,
`self.strength = np.random.randint(1, 10)` (the draw is passed in). -/
structure Warrior where
  id : ℕ
  xp : ℚ
  strength : ℤ
deriving Repr, DecidableEq, Inhabited

/-- `Warrior.__init__`: key stored, xp starts at 1, strength is the
randint draw. -/
def Warrior.create (key : ℕ) (strengthDraw : ℤ) : Warrior :=
  { id := key, xp := 1, strength := strengthDraw }

/-- Apply `f` to the element at index `i`, leaving the list unchanged when
`i` is out of range (in-place mutation of one agent in the registry). -/
def modifyAt (f : α → α) : List α → ℕ → List α
  | [], _ => []
  | x :: xs, 0 => f x :: xs
  | x :: xs, n + 1 => x :: modifyAt f xs n

/-- The successful-hunt update: `self.xp += 2.; self.strength += 3`. -/
def huntUpdate (w : Warrior) : Warrior :=
  { w with xp := w.xp + 2, strength := w.strength + 3 }

/-- `other.xp += d` / `self.xp += d`: add `d` to an agent's xp. -/
def addXp (d : ℚ) (w : Warrior) : Warrior :=
  { w with xp := w.xp + d }

/-- Hunt phase of `Warrior.step`: `is_hunt_success = u >= .8`; on success
apply the hunt update, otherwise no change. -/
def huntPhase (u : ℚ) (w : Warrior) : Warrior :=
  if u ≥ 8/10 then huntUpdate w else w

/-- Wrestle phase of `Warrior.step`, acting agent at index `a`, opponent
(`other = np.random.choice(self.model.schedule.agents)`) at index `pick`:
`if self.strength < other.strength: self.xp -= 2.; other.xp += 1.
 else: other.xp -= 2.; self.xp += 1.` -/
def wrestlePhase (agents : List Warrior) (a pick : ℕ) : List Warrior :=
  let selfW := agents.getD a default
  let other := agents.getD pick default
  if selfW.strength < other.strength then
    modifyAt (addXp 1) (modifyAt (addXp (-2)) agents a) pick
  else
    modifyAt (addXp 1) (modifyAt (addXp (-2)) agents pick) a

/-- One activation (`Warrior.step`) of the agent at index `a`: hunt phase
with roll `u`, then wrestle phase when `v > .85` with opponent `pick`. -/
def warriorStep (agents : List Warrior) (a : ℕ) (u v : ℚ) (pick : ℕ) :
    List Warrior :=
  let afterHunt := modifyAt (huntPhase u) agents a
  if v > 85/100 then wrestlePhase afterHunt a pick else afterHunt

/-- The random draws consumed by one activation: hunt roll `u`, wrestle
roll `v`, opponent index `pick`. -/
structure Draws where
  u : ℚ
  v : ℚ
  pick : ℕ
deriving Repr

/-- One tick of the scheduler (`RandomActivation.step`): activate the
agents in the shuffled order, each activation seeing the state left by
the previous ones. -/
def tick (agents : List Warrior) (acts : List (ℕ × Draws)) : List Warrior :=
  acts.foldl (fun st p => warriorStep st p.1 p.2.u p.2.v p.2.pick) agents

/-- Explicit random source: per-key initial strength draw
(`np.random.randint(1, 10)`), per-tick shuffled activation order, and
per-tick, per-position activation draws. -/
structure RandSrc where
  initStrength : ℕ → ℤ
  tickOrder : ℕ → List ℕ
  draws : ℕ → ℕ → Draws

/-- `Village.__init__(n)` for a natural `n`: create warriors with keys
`0..n-1` in creation order, each with its own strength draw. -/
def villageInit (n : ℕ) (rs : RandSrc) : List Warrior :=
  (List.range n).map (fun i => Warrior.create i (rs.initStrength i))

/-- `Village.__init__(n)` for an integer `n`: Python's `range(n)` is
empty for negative `n`, so the loop body never runs and no error is
raised — there is no validation of `n` in the constructor. -/
def villageInitI (n : ℤ) (rs : RandSrc) : List Warrior :=
  villageInit n.toNat rs

/-- Pair each key of the activation order with its positional draws,
starting at position `j`. -/
def attachDraws (ds : ℕ → Draws) : List ℕ → ℕ → List (ℕ × Draws)
  | [], _ => []
  | k :: ks, j => (k, ds j) :: attachDraws ds ks (j + 1)

/-- The activation list of tick `t`: the shuffled order zipped with the
per-position draws. -/
def tickActs (rs : RandSrc) (t : ℕ) : List (ℕ × Draws) :=
  attachDraws (rs.draws t) (rs.tickOrder t) 0

/-- Run the simulation: build the village, then `T` calls of
`model.step()`. -/
def runSim (n T : ℕ) (rs : RandSrc) : List Warrior :=
  (List.range T).foldl (fun st t => tick st (tickActs rs t)) (villageInit n rs)

/-- Read-out of the final agent data:
`list(map(lambda x: (x.xp, x.strength), model.schedule.agents))`. -/
def readOut (agents : List Warrior) : List (ℚ × ℤ) :=
  agents.map (fun w => (w.xp, w.strength))

/-- Total xp over the population. -/
def sumXp (agents : List Warrior) : ℚ :=
  (agents.map Warrior.xp).sum

/-- A single-agent population with xp 1 and strength 5 (the hunt-only
scenario's starting state). -/
def demo1 : List Warrior := [{ id := 0, xp := 1, strength := 5 }]

/-- A two-agent population where agent 0 is strictly weaker than agent 1. -/
def demo2 : List Warrior :=
  [{ id := 0, xp := 1, strength := 3 }, { id := 1, xp := 1, strength := 7 }]

/-- A three-agent population with equal strengths (tie scenario). -/
def demo3 : List Warrior :=
  [{ id := 0, xp := 1, strength := 4 }, { id := 1, xp := 1, strength := 4 },
   { id := 2, xp := 1, strength := 4 }]

/-- A concrete random source used to instantiate the general theorems. -/
def demoSrc : RandSrc :=
  { initStrength := fun _ => 5
    tickOrder := fun _ => [1, 0, 2]
    draws := fun _ _ => { u := 0, v := 0, pick := 0 } }

/-! ### Basic lemmas about `modifyAt` -/

theorem length_modifyAt (f : α → α) (l : List α) (i : ℕ) :
    (modifyAt f l i).length = l.length := by
  induction l generalizing i with
  | nil => rfl
  | cons x xs ih =>
    cases i with
    | zero => rfl
    | succ n => simp [modifyAt, ih]

theorem getD_modifyAt_ne (f : α → α) (l : List α) (i j : ℕ) (d : α)
    (h : j ≠ i) : (modifyAt f l i).getD j d = l.getD j d := by
  induction l generalizing i j with
  | nil => rfl
  | cons x xs ih =>
    cases i with
    | zero =>
      cases j with
      | zero => exact absurd rfl h
      | succ m => rfl
    | succ n =>
      cases j with
      | zero => rfl
      | succ m =>
        simp only [modifyAt, List.getD_cons_succ]
        exact ih n m (fun hc => h (by simp [hc]))

theorem getD_modifyAt_self (f : α → α) (l : List α) (i : ℕ) (d : α)
    (h : i < l.length) : (modifyAt f l i).getD i d = f (l.getD i d) := by
  induction l generalizing i with
  | nil => simp at h
  | cons x xs ih =>
    cases i with
    | zero => rfl
    | succ n =>
      simp only [modifyAt, List.getD_cons_succ]
      exact ih n (by simpa using h)

theorem modifyAt_id (f : α → α) (l : List α) (i : ℕ)
    (h : ∀ x, f x = x) : modifyAt f l i = l := by
  induction l generalizing i with
  | nil => rfl
  | cons x xs ih =>
    cases i with
    | zero => simp [modifyAt, h]
    | succ n => simp [modifyAt, ih]

theorem getD_modifyAt_out (f : α → α) (l : List α) (i : ℕ) (d : α)
    (h : l.length ≤ i) : (modifyAt f l i).getD i d = d := by
  apply List.getD_eq_default
  rw [length_modifyAt]
  exact h

theorem wrestlePhase_eq (agents : List Warrior) (a pick : ℕ) :
    wrestlePhase agents a pick =
      if (agents.getD a default).strength < (agents.getD pick default).strength
      then modifyAt (addXp 1) (modifyAt (addXp (-2)) agents a) pick
      else modifyAt (addXp 1) (modifyAt (addXp (-2)) agents pick) a := rfl

theorem warriorStep_eq (agents : List Warrior) (a : ℕ) (u v : ℚ) (pick : ℕ) :
    warriorStep agents a u v pick =
      if v > 85/100 then wrestlePhase (modifyAt (huntPhase u) agents a) a pick
      else modifyAt (huntPhase u) agents a := rfl

theorem addXp_xp (d : ℚ) (w : Warrior) : (addXp d w).xp = w.xp + d := rfl

theorem addXp_strength (d : ℚ) (w : Warrior) :
    (addXp d w).strength = w.strength := rfl

theorem addXp_id (d : ℚ) (w : Warrior) : (addXp d w).id = w.id := rfl

/-- Any field preserved by the update `f` is preserved pointwise through
`modifyAt f`, at every index. -/
theorem getD_modifyAt_field {f : Warrior → Warrior} {β : Type} (g : Warrior → β)
    (hf : ∀ w, g (f w) = g w) (l : List Warrior) (i j : ℕ) :
    g ((modifyAt f l i).getD j default) = g (l.getD j default) := by
  by_cases hj : j = i
  · subst hj
    by_cases hi : j < l.length
    · rw [getD_modifyAt_self _ _ _ _ hi, hf]
    · rw [getD_modifyAt_out _ _ _ _ (le_of_not_lt hi),
        List.getD_eq_default _ _ (le_of_not_lt hi)]
  · rw [getD_modifyAt_ne _ _ _ _ _ hj]

/-! ### C1: wrestle outcome and tie-break -/

/-- C1: when a wrestle fires with acting agent at index `a` and a distinct
opponent at index `pick`: if `A.strength < B.strength` then A's xp drops
by 2 and B's xp rises by 1; otherwise — including the tie — B's xp drops
by 2 and A's xp rises by 1, so ties go to the acting agent. -/
theorem wrestle_outcome (agents : List Warrior) (a pick : ℕ)
    (ha : a < agents.length) (hp : pick < agents.length) (hne : a ≠ pick) :
    ((agents.getD a default).strength < (agents.getD pick default).strength →
      ((wrestlePhase agents a pick).getD a default).xp =
        (agents.getD a default).xp - 2 ∧
      ((wrestlePhase agents a pick).getD pick default).xp =
        (agents.getD pick default).xp + 1) ∧
    (¬ (agents.getD a default).strength < (agents.getD pick default).strength →
      ((wrestlePhase agents a pick).getD pick default).xp =
        (agents.getD pick default).xp - 2 ∧
      ((wrestlePhase agents a pick).getD a default).xp =
        (agents.getD a default).xp + 1) ∧
    ((agents.getD a default).strength = (agents.getD pick default).strength →
      ((wrestlePhase agents a pick).getD pick default).xp =
        (agents.getD pick default).xp - 2 ∧
      ((wrestlePhase agents a pick).getD a default).xp =
        (agents.getD a default).xp + 1) := by
  have hne' : pick ≠ a := Ne.symm hne
  refine ⟨fun hlt => ?_, fun hge => ?_, fun heq => ?_⟩
  · rw [wrestlePhase_eq, if_pos hlt]
    constructor
    · rw [getD_modifyAt_ne _ _ _ _ _ hne,
        getD_modifyAt_self _ _ _ _ ha, addXp_xp]
      ring
    · rw [getD_modifyAt_self _ _ _ _ (by rw [length_modifyAt]; exact hp),
        getD_modifyAt_ne _ _ _ _ _ hne', addXp_xp]
  · rw [wrestlePhase_eq, if_neg hge]
    constructor
    · rw [getD_modifyAt_ne _ _ _ _ _ hne',
        getD_modifyAt_self _ _ _ _ hp, addXp_xp]
      ring
    · rw [getD_modifyAt_self _ _ _ _ (by rw [length_modifyAt]; exact ha),
        getD_modifyAt_ne _ _ _ _ _ hne, addXp_xp]
  · have hge : ¬ (agents.getD a default).strength <
        (agents.getD pick default).strength := by rw [heq]; exact lt_irrefl _
    rw [wrestlePhase_eq, if_neg hge]
    constructor
    · rw [getD_modifyAt_ne _ _ _ _ _ hne',
        getD_modifyAt_self _ _ _ _ hp, addXp_xp]
      ring
    · rw [getD_modifyAt_self _ _ _ _ (by rw [length_modifyAt]; exact ha),
        getD_modifyAt_ne _ _ _ _ _ hne, addXp_xp]

/-- C1 witness: in `demo2` agent 0 (strength 3) wrestles agent 1
(strength 7); the weaker acting agent loses 2 xp and the opponent
gains 1. -/
theorem wrestle_outcome_witness :
    ((wrestlePhase demo2 0 1).getD 0 default).xp = -1 ∧
    ((wrestlePhase demo2 0 1).getD 1 default).xp = 2 := by
  have h := (wrestle_outcome demo2 0 1 (by decide) (by decide) (by decide)).1
    (by decide)
  refine ⟨?_, ?_⟩
  · rw [h.1]; norm_num [demo2]
  · rw [h.2]; norm_num [demo2]

/-! ### C2: hunt phase -/

/-- C2: with the wrestle roll failing, the hunt succeeds exactly when
`u ≥ 0.8`; on success the acting agent gains exactly 2 xp and 3 strength
(key unchanged) and every other agent is untouched, and on failure the
whole state is unchanged. -/
theorem hunt_step (agents : List Warrior) (a : ℕ) (u v : ℚ) (pick : ℕ)
    (ha : a < agents.length) (hv : ¬ v > 85/100) :
    (u ≥ 8/10 →
      ((warriorStep agents a u v pick).getD a default).xp =
        (agents.getD a default).xp + 2 ∧
      ((warriorStep agents a u v pick).getD a default).strength =
        (agents.getD a default).strength + 3 ∧
      ((warriorStep agents a u v pick).getD a default).id =
        (agents.getD a default).id ∧
      ∀ j, j ≠ a →
        (warriorStep agents a u v pick).getD j default =
          agents.getD j default) ∧
    (¬ u ≥ 8/10 → warriorStep agents a u v pick = agents) := by
  rw [warriorStep_eq, if_neg hv]
  constructor
  · intro hu
    have hself := getD_modifyAt_self (huntPhase u) agents a default ha
    rw [huntPhase, if_pos hu] at hself
    rw [hself]
    exact ⟨rfl, rfl, rfl, fun j hj => getD_modifyAt_ne _ _ _ _ _ hj⟩
  · intro hu
    exact modifyAt_id _ _ _ (fun w => by rw [huntPhase, if_neg hu])

/-- C2 witness: the hunt-only scenario — one agent with xp 1 and
strength 5, hunt roll 0.9 (success) and wrestle roll 0.5 (failure) —
ends with xp 3 and strength 8. -/
theorem hunt_step_witness :
    ((warriorStep demo1 0 (9/10) (1/2) 0).getD 0 default).xp = 3 ∧
    ((warriorStep demo1 0 (9/10) (1/2) 0).getD 0 default).strength = 8 := by
  have h := (hunt_step demo1 0 (9/10) (1/2) 0 (by decide) (by norm_num)).1
    (by norm_num)
  refine ⟨?_, ?_⟩
  · rw [h.1]; norm_num [demo1]
  · rw [h.2.1]; norm_num [demo1]

/-! ### C3: self-contest -/

/-- C3: when the opponent pick returns the acting agent itself the turn
completes (the step is total) and the agent's xp changes by exactly −1
in the wrestle: A ties with itself, wins under the strict-`<` rule, and
the `-2.` and `+1.` land on the same agent. -/
theorem self_contest (agents : List Warrior) (a : ℕ) (u v : ℚ)
    (ha : a < agents.length) (hu : ¬ u ≥ 8/10) (hv : v > 85/100) :
    ((wrestlePhase agents a a).getD a default).xp =
      (agents.getD a default).xp - 1 ∧
    (∀ j, j ≠ a →
      (wrestlePhase agents a a).getD j default = agents.getD j default) ∧
    ((warriorStep agents a u v a).getD a default).xp =
      (agents.getD a default).xp - 1 ∧
    (warriorStep agents a u v a).length = agents.length := by
  have hkey : ∀ l : List Warrior, a < l.length →
      ((wrestlePhase l a a).getD a default).xp = (l.getD a default).xp - 1 := by
    intro l hl
    rw [wrestlePhase_eq, if_neg (lt_irrefl _),
      getD_modifyAt_self _ _ _ _ (by rw [length_modifyAt]; exact hl),
      getD_modifyAt_self _ _ _ _ hl, addXp_xp, addXp_xp]
    ring
  have hstep : warriorStep agents a u v a = wrestlePhase agents a a := by
    rw [warriorStep_eq, if_pos hv,
      modifyAt_id _ _ _ (fun w => by rw [huntPhase, if_neg hu])]
  refine ⟨hkey agents ha, fun j hj => ?_, ?_, ?_⟩
  · rw [wrestlePhase_eq]
    split
    · rw [getD_modifyAt_ne _ _ _ _ _ hj, getD_modifyAt_ne _ _ _ _ _ hj]
    · rw [getD_modifyAt_ne _ _ _ _ _ hj, getD_modifyAt_ne _ _ _ _ _ hj]
  · rw [hstep]; exact hkey agents ha
  · rw [hstep, wrestlePhase_eq]
    split
    · rw [length_modifyAt, length_modifyAt]
    · rw [length_modifyAt, length_modifyAt]

/-- C3 witness: in `demo3` agent 1 picks itself with a failed hunt roll
and a firing wrestle roll; its xp ends at 0 = 1 − 1 and agent 0 is
untouched. -/
theorem self_contest_witness :
    ((wrestlePhase demo3 1 1).getD 1 default).xp = 0 ∧
    ((warriorStep demo3 1 (1/2) (9/10) 1).getD 1 default).xp = 0 := by
  have h := self_contest demo3 1 (1/2) (9/10) (by decide) (by norm_num)
    (by norm_num)
  refine ⟨?_, ?_⟩
  · rw [h.1]; norm_num [demo3]
  · rw [h.2.2.1]; norm_num [demo3]

/-! ### C4: constructor validation -/

/-- C4 counterexample: constructing the village with the negative
population size −5 raises no error — `Village.__init__` has no
validation, `range(-5)` is empty, and the result is a silently empty
population. -/
theorem villageInit_neg_no_error : villageInitI (-5) demoSrc = [] := rfl

/-- C4 (amended): constructing with a negative integer population size
does not fail fast; the creation loop runs over an empty `range(n)` and
silently produces an empty population. -/
theorem villageInit_neg_silent (n : ℤ) (rs : RandSrc) (h : n < 0) :
    villageInitI n rs = [] := by
  rw [villageInitI]
  rw [Int.toNat_of_nonpos (le_of_lt h)]
  rfl

/-- C4 witness: the amended statement at `n = -3`. -/
theorem villageInit_neg_silent_witness : villageInitI (-3) demoSrc = [] :=
  villageInit_neg_silent (-3) demoSrc (by norm_num)

/-! ### C5: initial state -/

/-- C5: right after construction every agent has xp 1, strength in
`[1, 9]` (given that every `randint(1, 10)` draw lies in that range),
and the agents carry the keys `0..n-1` in creation order. -/
theorem init_state (n : ℕ) (rs : RandSrc)
    (h : ∀ i, 1 ≤ rs.initStrength i ∧ rs.initStrength i ≤ 9) :
    (∀ w ∈ villageInit n rs, w.xp = 1 ∧ 1 ≤ w.strength ∧ w.strength ≤ 9) ∧
    (villageInit n rs).map Warrior.id = List.range n := by
  constructor
  · intro w hw
    rw [villageInit, List.mem_map] at hw
    obtain ⟨i, -, rfl⟩ := hw
    exact ⟨rfl, (h i).1, (h i).2⟩
  · rw [villageInit, List.map_map]
    have hcomp : Warrior.id ∘ (fun i => Warrior.create i (rs.initStrength i)) =
        id := rfl
    rw [hcomp, List.map_id]

/-- C5 witness: a three-agent village built from draws all equal to 5 has
keys `[0, 1, 2]` and its first agent has xp 1 and strength 5 ∈ [1, 9]. -/
theorem init_state_witness :
    (villageInit 3 demoSrc).map Warrior.id = List.range 3 ∧
    (1 : ℚ) = 1 ∧ 1 ≤ (5 : ℤ) ∧ (5 : ℤ) ≤ 9 := by
  have h := init_state 3 demoSrc (fun i => by constructor <;> norm_num [demoSrc])
  refine ⟨h.2, ?_⟩
  have hm : ({ id := 0, xp := 1, strength := 5 } : Warrior) ∈
      villageInit 3 demoSrc := by
    rw [villageInit, List.mem_map]
    exact ⟨0, by decide, rfl⟩
  exact h.1 _ hm

/-! ### C6: every agent activated exactly once per tick -/

theorem attachDraws_map_fst (ds : ℕ → Draws) (l : List ℕ) (j : ℕ) :
    (attachDraws ds l j).map Prod.fst = l := by
  induction l generalizing j with
  | nil => rfl
  | cons k ks ih => simp [attachDraws, ih]

/-- C6: when the shuffled activation order of tick `t` is a permutation
of the agent keys `0..n-1` (the contract of the random-activation
shuffle), every key is activated exactly once in that tick — none
skipped, none repeated. -/
theorem activation_exactly_once (n : ℕ) (rs : RandSrc) (t : ℕ)
    (hperm : (rs.tickOrder t).Perm (List.range n)) :
    ∀ k, k < n → ((tickActs rs t).map Prod.fst).count k = 1 := by
  intro k hk
  rw [tickActs, attachDraws_map_fst, hperm.count_eq]
  exact List.count_eq_one_of_mem (List.nodup_range n) (List.mem_range.mpr hk)

/-- C6 witness: with order `[1, 0, 2]` over three agents, key 1 is
activated exactly once. -/
theorem activation_exactly_once_witness :
    ((tickActs demoSrc 0).map Prod.fst).count 1 = 1 :=
  activation_exactly_once 3 demoSrc 0 (by decide) 1 (by decide)

/-! ### C7: frame property of one activation -/

theorem huntPhase_id (u : ℚ) (w : Warrior) : (huntPhase u w).id = w.id := by
  rw [huntPhase]; split <;> rfl

/-- C7: an activation of the agent at index `a` with opponent index
`pick` leaves every other agent untouched, never changes any agent's
key, never changes the opponent's strength, and preserves the
population's length. -/
theorem step_frame (agents : List Warrior) (a : ℕ) (u v : ℚ) (pick : ℕ) :
    (∀ j, j ≠ a → j ≠ pick →
      (warriorStep agents a u v pick).getD j default =
        agents.getD j default) ∧
    (∀ j, ((warriorStep agents a u v pick).getD j default).id =
      (agents.getD j default).id) ∧
    (pick ≠ a →
      ((warriorStep agents a u v pick).getD pick default).strength =
        (agents.getD pick default).strength) ∧
    (warriorStep agents a u v pick).length = agents.length := by
  rw [warriorStep_eq]
  by_cases hv : v > 85/100
  · rw [if_pos hv, wrestlePhase_eq]
    split
    all_goals
      refine ⟨fun j hja hjp => ?_, fun j => ?_, fun hpa => ?_, ?_⟩
    · rw [getD_modifyAt_ne _ _ _ _ _ hjp, getD_modifyAt_ne _ _ _ _ _ hja,
        getD_modifyAt_ne _ _ _ _ _ hja]
    · rw [getD_modifyAt_field Warrior.id (addXp_id 1),
        getD_modifyAt_field Warrior.id (addXp_id (-2)),
        getD_modifyAt_field Warrior.id (huntPhase_id u)]
    · rw [getD_modifyAt_field Warrior.strength (addXp_strength 1),
        getD_modifyAt_field Warrior.strength (addXp_strength (-2)),
        getD_modifyAt_ne _ _ _ _ _ hpa]
    · rw [length_modifyAt, length_modifyAt, length_modifyAt]
    · rw [getD_modifyAt_ne _ _ _ _ _ hja, getD_modifyAt_ne _ _ _ _ _ hjp,
        getD_modifyAt_ne _ _ _ _ _ hja]
    · rw [getD_modifyAt_field Warrior.id (addXp_id 1),
        getD_modifyAt_field Warrior.id (addXp_id (-2)),
        getD_modifyAt_field Warrior.id (huntPhase_id u)]
    · rw [getD_modifyAt_field Warrior.strength (addXp_strength 1),
        getD_modifyAt_field Warrior.strength (addXp_strength (-2)),
        getD_modifyAt_ne _ _ _ _ _ hpa]
    · rw [length_modifyAt, length_modifyAt, length_modifyAt]
  · rw [if_neg hv]
    exact ⟨fun j hja _ => getD_modifyAt_ne _ _ _ _ _ hja,
      fun j => getD_modifyAt_field Warrior.id (huntPhase_id u) _ _ _,
      fun hpa => by rw [getD_modifyAt_ne _ _ _ _ _ hpa],
      length_modifyAt _ _ _⟩

/-- C7 witness: with agent 0 acting against opponent 1 in `demo3`,
agent 2 is untouched and the opponent's strength is unchanged. -/
theorem step_frame_witness :
    (warriorStep demo3 0 (9/10) (9/10) 1).getD 2 default =
      demo3.getD 2 default ∧
    ((warriorStep demo3 0 (9/10) (9/10) 1).getD 1 default).strength =
      (demo3.getD 1 default).strength := by
  have h := step_frame demo3 0 (9/10) (9/10) 1
  exact ⟨h.1 2 (by decide) (by decide), h.2.2.1 (by decide)⟩

/-! ### C8: strength never decreases -/

theorem huntPhase_strength_le (u : ℚ) (w : Warrior) :
    w.strength ≤ (huntPhase u w).strength := by
  rw [huntPhase]
  split
  · show w.strength ≤ (huntUpdate w).strength
    rw [show (huntUpdate w).strength = w.strength + 3 from rfl]
    omega
  · exact le_refl _

theorem strength_mono_modifyAt (f : Warrior → Warrior)
    (hf : ∀ w, w.strength ≤ (f w).strength) (l : List Warrior) (i j : ℕ) :
    (l.getD j default).strength ≤ ((modifyAt f l i).getD j default).strength := by
  by_cases hj : j = i
  · subst hj
    by_cases hl : j < l.length
    · rw [getD_modifyAt_self _ _ _ _ hl]
      exact hf _
    · rw [getD_modifyAt_out _ _ _ _ (le_of_not_lt hl),
        List.getD_eq_default _ _ (le_of_not_lt hl)]
  · rw [getD_modifyAt_ne _ _ _ _ _ hj]

theorem strength_mono_warriorStep (agents : List Warrior) (a : ℕ) (u v : ℚ)
    (pick j : ℕ) :
    (agents.getD j default).strength ≤
      ((warriorStep agents a u v pick).getD j default).strength := by
  rw [warriorStep_eq]
  have h1 := strength_mono_modifyAt (huntPhase u) (huntPhase_strength_le u)
    agents a j
  by_cases hv : v > 85/100
  · rw [if_pos hv, wrestlePhase_eq]
    split
    · rw [getD_modifyAt_field Warrior.strength (addXp_strength 1),
        getD_modifyAt_field Warrior.strength (addXp_strength (-2))]
      exact h1
    · rw [getD_modifyAt_field Warrior.strength (addXp_strength 1),
        getD_modifyAt_field Warrior.strength (addXp_strength (-2))]
      exact h1
  · rw [if_neg hv]
    exact h1

theorem strength_mono_tick (acts : List (ℕ × Draws)) (agents : List Warrior)
    (j : ℕ) :
    (agents.getD j default).strength ≤ ((tick agents acts).getD j default).strength := by
  induction acts generalizing agents with
  | nil => exact le_refl _
  | cons p ps ih =>
    exact le_trans (strength_mono_warriorStep agents p.1 p.2.u p.2.v p.2.pick j)
      (ih (warriorStep agents p.1 p.2.u p.2.v p.2.pick))

theorem strength_mono_foldTicks (ts : List ℕ) (rs : RandSrc)
    (agents : List Warrior) (j : ℕ) :
    (agents.getD j default).strength ≤
      ((ts.foldl (fun st t => tick st (tickActs rs t)) agents).getD j
        default).strength := by
  induction ts generalizing agents with
  | nil => exact le_refl _
  | cons t ts ih =>
    exact le_trans (strength_mono_tick (tickActs rs t) agents j)
      (ih (tick agents (tickActs rs t)))

theorem villageInit_getD (n : ℕ) (rs : RandSrc) (j : ℕ) (h : j < n) :
    (villageInit n rs).getD j default = Warrior.create j (rs.initStrength j) := by
  rw [villageInit, List.getD_eq_getElem?_getD, List.getElem?_map,
    List.getElem?_range h]
  rfl

/-- C8: an agent's strength never decreases — pointwise across a single
activation, across a whole tick, and across a full run; with every
initial `randint(1, 10)` draw at least 1, every agent's strength stays
a positive integer throughout the simulation. -/
theorem strength_never_decreases :
    (∀ agents a u v pick j,
      ((agents.getD j default).strength ≤
        ((warriorStep agents a u v pick).getD j default).strength)) ∧
    (∀ agents acts j,
      (agents.getD j default).strength ≤
        ((tick agents acts).getD j default).strength) ∧
    (∀ n T rs, (∀ i, 1 ≤ rs.initStrength i) →
      ∀ j, j < n → 1 ≤ ((runSim n T rs).getD j default).strength) := by
  refine ⟨strength_mono_warriorStep,
    fun agents acts j => strength_mono_tick acts agents j, ?_⟩
  intro n T rs hrs j hj
  have h0 : 1 ≤ ((villageInit n rs).getD j default).strength := by
    rw [villageInit_getD n rs j hj]
    exact hrs j
  exact le_trans h0 (strength_mono_foldTicks (List.range T) rs
    (villageInit n rs) j)

/-- C8 witness: after a two-tick run of a three-agent village whose
initial draws are all 5, agent 0 still has strength at least 1. -/
theorem strength_never_decreases_witness :
    1 ≤ ((runSim 3 2 demoSrc).getD 0 default).strength :=
  strength_never_decreases.2.2 3 2 demoSrc
    (fun i => by norm_num [demoSrc]) 0 (by norm_num)

/-! ### C9: determinism given the random source -/

/-- C9: two runs with the same population size and tick count whose
random sources agree draw-for-draw (same strength draws, same shuffled
orders, same per-activation rolls) produce identical final
(xp, strength) read-outs. -/
theorem run_deterministic (n T : ℕ) (rs1 rs2 : RandSrc)
    (h1 : ∀ i, rs1.initStrength i = rs2.initStrength i)
    (h2 : ∀ t, rs1.tickOrder t = rs2.tickOrder t)
    (h3 : ∀ t j, rs1.draws t j = rs2.draws t j) :
    readOut (runSim n T rs1) = readOut (runSim n T rs2) := by
  obtain ⟨f1, o1, d1⟩ := rs1
  obtain ⟨f2, o2, d2⟩ := rs2
  obtain rfl : f1 = f2 := funext h1
  obtain rfl : o1 = o2 := funext h2
  obtain rfl : d1 = d2 := funext fun t => funext (h3 t)
  rfl

/-- C9 witness: the identical-source instance at n = 3, T = 2. -/
theorem run_deterministic_witness :
    readOut (runSim 3 2 demoSrc) = readOut (runSim 3 2 demoSrc) :=
  run_deterministic 3 2 demoSrc demoSrc (fun _ => rfl) (fun _ => rfl)
    (fun _ _ => rfl)

/-! ### C10: xp bookkeeping of a wrestle -/

theorem sumXp_cons (w : Warrior) (l : List Warrior) :
    sumXp (w :: l) = w.xp + sumXp l := by
  rw [sumXp, sumXp, List.map_cons, List.sum_cons]

theorem sumXp_modifyAt_addXp (d : ℚ) (l : List Warrior) (i : ℕ)
    (h : i < l.length) : sumXp (modifyAt (addXp d) l i) = sumXp l + d := by
  induction l generalizing i with
  | nil => simp at h
  | cons x xs ih =>
    cases i with
    | zero =>
      rw [show modifyAt (addXp d) (x :: xs) 0 = addXp d x :: xs from rfl,
        sumXp_cons, sumXp_cons, addXp_xp]
      ring
    | succ m =>
      rw [show modifyAt (addXp d) (x :: xs) (m + 1) =
          x :: modifyAt (addXp d) xs m from rfl,
        sumXp_cons, sumXp_cons, ih m (by simpa using h)]
      ring

/-- C10: every wrestle (any winner, the self-contest included) lowers
the population's total xp by exactly 1, and an activation with a failed
hunt and no wrestle leaves the total xp unchanged. -/
theorem wrestle_xp_conservation :
    (∀ agents a pick, a < agents.length → pick < agents.length →
      sumXp (wrestlePhase agents a pick) = sumXp agents - 1) ∧
    (∀ agents a u v pick, ¬ u ≥ 8/10 → ¬ v > 85/100 →
      sumXp (warriorStep agents a u v pick) = sumXp agents) := by
  constructor
  · intro agents a pick ha hp
    rw [wrestlePhase_eq]
    split
    · rw [sumXp_modifyAt_addXp 1 _ pick (by rw [length_modifyAt]; exact hp),
        sumXp_modifyAt_addXp (-2) _ a ha]
      ring
    · rw [sumXp_modifyAt_addXp 1 _ a (by rw [length_modifyAt]; exact ha),
        sumXp_modifyAt_addXp (-2) _ pick hp]
      ring
  · intro agents a u v pick hu hv
    rw [warriorStep_eq, if_neg hv,
      modifyAt_id _ _ _ (fun w => by rw [huntPhase, if_neg hu])]

/-- C10 witness: a wrestle in `demo2` drops the total xp from 2 to 1,
and an event-free activation keeps the total at 2; the self-contest in
`demo3` also drops the total by exactly 1. -/
theorem wrestle_xp_conservation_witness :
    sumXp (wrestlePhase demo2 0 1) = sumXp demo2 - 1 ∧
    sumXp (warriorStep demo2 0 (1/2) (1/2) 1) = sumXp demo2 ∧
    sumXp (wrestlePhase demo3 1 1) = sumXp demo3 - 1 :=
  ⟨wrestle_xp_conservation.1 demo2 0 1 (by decide) (by decide),
   wrestle_xp_conservation.2 demo2 0 (1/2) (1/2) 1 (by norm_num) (by norm_num),
   wrestle_xp_conservation.1 demo3 1 1 (by decide) (by decide)⟩
